import Mathlib

/-!
# Verification of the lrbd-player-tracker refresh core

Shallow embedding of the client-side data/refresh logic of the
lrbd-player-tracker dashboard (`src/script.js`, `src/api/shifts.js`,
`src/api/players.js`) together with proofs of the specified properties.

The JavaScript is single-threaded and event-driven; every `await` point is
modelled by passing the outcome of the awaited operation as an explicit
argument (`Except` for fallible fetches).  Mutable module state becomes an
explicit state record, and functions return the updated state.
-/

namespace LrbdTracker

/-! ## Resilient fetcher (`fetchWithRetry`, src/script.js lines 397-453)

`fetchWithRetry(url, options, maxRetries)` loops `attempt` from `0` to
`maxRetries - 1`; a successful attempt returns immediately, a failed attempt
records `lastError` and, when `attempt < maxRetries - 1`, waits
`min(1000 * 2^attempt, 5000)` milliseconds before the next attempt.  When the
loop ends, `lastError` is thrown.  The network is modelled by `outcomes`,
giving the result of each attempt; the observable behaviour (attempts made and
delays slept, in order) is returned as a trace of events. -/

/-- Observable events of one `fetchWithRetry` call: `att i` is the `i`-th
attempt (0-based), `sleep ms` is a backoff delay of `ms` milliseconds. -/
inductive Ev where
  | att (i : Nat)
  | sleep (ms : Nat)
deriving DecidableEq

/-- `const delay = Math.min(1000 * Math.pow(2, attempt), 5000)`. -/
def backoffDelay (attempt : Nat) : Nat := min (1000 * 2 ^ attempt) 5000

/-- `MAX_RETRIES = 3` (src/script.js line 354, default of `maxRetries`). -/
def MAX_RETRIES : Nat := 3

/-- The retry loop of `fetchWithRetry`, from a given `attempt` with the
`lastError` seen so far (`none` until a first failure, as `lastError` is
`undefined` before any attempt fails). -/
def fetchWithRetryGo {α ε : Type} (outcomes : Nat → Except ε α) (maxRetries : Nat)
    (attempt : Nat) (lastError : Option ε) : Except (Option ε) α × List Ev :=
  if attempt < maxRetries then
    match outcomes attempt with
    | .ok r => (.ok r, [Ev.att attempt])
    | .error e =>
      let rest := fetchWithRetryGo outcomes maxRetries (attempt + 1) (some e)
      if attempt < maxRetries - 1 then
        (rest.1, Ev.att attempt :: Ev.sleep (backoffDelay attempt) :: rest.2)
      else
        (rest.1, Ev.att attempt :: rest.2)
  else
    (.error lastError, [])
termination_by maxRetries - attempt

/-- `fetchWithRetry` (src/script.js lines 397-453 and src/api/shifts.js lines
13-43): run the retry loop from attempt 0. -/
def fetchWithRetry {α ε : Type} (outcomes : Nat → Except ε α)
    (maxRetries : Nat := MAX_RETRIES) : Except (Option ε) α × List Ev :=
  fetchWithRetryGo outcomes maxRetries 0 none

/-- Number of fetch attempts recorded in a trace. -/
def numAttempts (t : List Ev) : Nat :=
  t.countP fun e => match e with | .att _ => true | .sleep _ => false

/-- The trace of `k` consecutive failing attempts starting at attempt `s`:
each attempt but the last is followed by its backoff delay. -/
def retryTrace (s k : Nat) : List Ev :=
  match k with
  | 0 => []
  | k' + 1 =>
    Ev.att s :: (if k' = 0 then [] else Ev.sleep (backoffDelay s) :: retryTrace (s + 1) k')

/-! ## CSV parser (`parseCsv`, src/script.js lines 26-46)

A character-at-a-time quote-aware parser: outside quotes, `,` ends a cell,
`\n` ends a row, `\r` is ignored and `"` opens a quoted section; inside
quotes, `""` is an escaped literal quote (consuming both characters) and a
single `"` closes the section.  At end of input the pending cell and row are
emitted.  Cells are accumulated as `List Char` and turned into `String`s when
pushed, mirroring `cell += ch` / `row.push(cell)`. -/

def parseCsvGo : List Char → List (List String) → List String → List Char → Bool →
    List (List String)
  | [], rows, row, cell, _ => rows ++ [row ++ [String.mk cell]]
  | c :: cs, rows, row, cell, true =>
    if c = '"' then
      match cs with
      | c2 :: cs2 =>
        if c2 = '"' then parseCsvGo cs2 rows row (cell ++ ['"']) true
        else parseCsvGo (c2 :: cs2) rows row cell false
      | [] => rows ++ [row ++ [String.mk cell]]
    else parseCsvGo cs rows row (cell ++ [c]) true
  | c :: cs, rows, row, cell, false =>
    if c = '"' then parseCsvGo cs rows row cell true
    else if c = ',' then parseCsvGo cs rows (row ++ [String.mk cell]) [] false
    else if c = '\n' then parseCsvGo cs (rows ++ [row ++ [String.mk cell]]) [] [] false
    else if c = '\r' then parseCsvGo cs rows row cell false
    else parseCsvGo cs rows row (cell ++ [c]) false

/-- `parseCsv(text)`: run the character loop on the whole text with empty
accumulators and `inQuotes = false`. -/
def parseCsv (text : String) : List (List String) :=
  parseCsvGo text.data [] [] [] false

/-- Number of newline-delimited records in a CSV text: one more than the
number of `\n` characters occurring outside quoted sections, tracking the
same quote discipline as the parser (`""` inside quotes is an escape).  The
trailing record is counted even when no final newline terminates it. -/
def csvRecordCount : List Char → Bool → Nat
  | [], _ => 1
  | c :: cs, true =>
    if c = '"' then
      match cs with
      | c2 :: cs2 =>
        if c2 = '"' then csvRecordCount cs2 true
        else csvRecordCount (c2 :: cs2) false
      | [] => 1
    else csvRecordCount cs true
  | c :: cs, false =>
    if c = '"' then csvRecordCount cs true
    else if c = '\n' then 1 + csvRecordCount cs false
    else csvRecordCount cs false

/-- Double every `"` in a field's character content (the CSV `""` escape). -/
def escapeQuotes : List Char → List Char
  | [] => []
  | c :: cs => (if c = '"' then ['"', '"'] else [c]) ++ escapeQuotes cs

/-- Serialize one field fully quoted: `"` + escaped content + `"`. -/
def quoteField (s : String) : List Char :=
  '"' :: (escapeQuotes s.data ++ ['"'])

/-- Serialize a row as comma-separated fully-quoted fields. -/
def serializeRow : List String → List Char
  | [] => []
  | [f] => quoteField f
  | f :: g :: fs => quoteField f ++ ',' :: serializeRow (g :: fs)

/-- Serialize rows separated by the given line terminator (`\n` or `\r\n`). -/
def serializeCsv (sep : List Char) : List (List String) → List Char
  | [] => []
  | [r] => serializeRow r
  | r :: r' :: rs => serializeRow r ++ sep ++ serializeCsv sep (r' :: rs)

/-! ## JavaScript string primitives

The embeddings of `String.prototype.toLowerCase`, `trim` and
`split(" • ")` used by the shift pipeline, written directly on the
character list. -/

/-- `s.toLowerCase()` (ASCII letters; license keys are alphanumeric). -/
def jsToLower (s : String) : String :=
  String.mk (s.data.map Char.toLower)

/-- A JavaScript whitespace character (the ones relevant to `trim`). -/
def isJsSpace (c : Char) : Bool :=
  c == ' ' || c == '\t' || c == '\n' || c == '\r'

/-- `s.trim()`: strip whitespace from both ends. -/
def jsTrim (s : String) : String :=
  String.mk (((s.data.dropWhile isJsSpace).reverse.dropWhile isJsSpace).reverse)

/-- `str.split(sep)` for a three-character separator `[a, b, c]`: leftmost
non-overlapping matches, empty pieces kept. -/
def splitOn3 (a b c : Char) : List Char → List Char → List (List Char)
  | [], acc => [acc.reverse]
  | [x], acc => [(x :: acc).reverse]
  | [x, y], acc => [(y :: x :: acc).reverse]
  | x :: y :: z :: rest, acc =>
    if x = a ∧ y = b ∧ z = c then acc.reverse :: splitOn3 a b c rest []
    else splitOn3 a b c (y :: z :: rest) (x :: acc)

/-- `role.split(' • ')` (src/script.js line 667). -/
def jsSplitBullet (s : String) : List String :=
  (splitOn3 ' ' '•' ' ' s.data []).map String.mk

/-! ## Shift data (`fetchShiftData`, src/script.js lines 456-512)

The `/api/shifts` payload is a JSON array of `{license, icName, role}`
records (built in src/api/shifts.js lines 129-136).  `fetchShiftData` keeps a
module-level cache `{data, timestamp}` with a 60,000 ms TTL; on a fresh cache
it returns the cached map without fetching, otherwise it fetches, builds a
fresh `Map` keyed by `license.trim().toLowerCase()` (last duplicate wins,
empty keys skipped, `icName`/`role` defaulting to `"-"`), and replaces the
cache; on any fetch/parse error (network failure after retries, non-OK
status, or an `{error}` body) it falls back to the stale cache when present
and to an empty `Map` otherwise — it never throws. -/

/-- One record of the `/api/shifts` JSON payload. -/
structure ShiftItem where
  license : String
  icName : String
  role : String
deriving DecidableEq

/-- The value stored per license in the shift map. -/
structure ShiftEntry where
  icName : String
  role : String
deriving DecidableEq

/-- A JavaScript `Map` from license keys to shift entries, as an
insertion-ordered association list without duplicate keys. -/
abbrev ShiftMap := List (String × ShiftEntry)

/-- `map.set(k, v)`: overwrite in place when the key exists, else append. -/
def mapSet (m : ShiftMap) (k : String) (v : ShiftEntry) : ShiftMap :=
  if m.any (fun p => p.1 == k) then
    m.map (fun p => if p.1 == k then (k, v) else p)
  else m ++ [(k, v)]

/-- `map.get(k)`: the entry stored at `k`, if any. -/
def mapGet (m : ShiftMap) (k : String) : Option ShiftEntry :=
  (m.find? (fun p => p.1 == k)).map Prod.snd

/-- The map-building loop of `fetchShiftData` (src/script.js lines 478-487):
keys are trimmed and lower-cased, empty keys are skipped, missing
`icName`/`role` default to `"-"`. -/
def buildShiftMap (data : List ShiftItem) : ShiftMap :=
  data.foldl
    (fun m item =>
      let license := jsToLower (jsTrim item.license)
      if license ≠ "" then
        mapSet m license
          ⟨if item.icName = "" then "-" else item.icName,
           if item.role = "" then "-" else item.role⟩
      else m)
    []

/-- `SHIFTS_CACHE_DURATION = 60000` (src/script.js line 353). -/
def SHIFTS_CACHE_DURATION : Nat := 60000

/-- The module-level `shiftsCache = { data, timestamp }`. -/
structure ShiftsCache where
  data : Option ShiftMap
  timestamp : Nat
deriving DecidableEq

/-- Result of one `fetchShiftData` call: the returned map, the cache state
after the call, and whether a network fetch was issued. -/
structure ShiftDataOutcome where
  map : ShiftMap
  cache : ShiftsCache
  didFetch : Bool
deriving DecidableEq

/-- The fetch-and-fallback part of `fetchShiftData` (the `try`/`catch`):
on success build a fresh map and replace the cache; on failure serve the
stale cache when present, else an empty map.  The cache is not touched on
failure. -/
def fetchShiftDataFetch (cache : ShiftsCache) (now : Nat)
    (fetchResult : Except String (List ShiftItem)) : ShiftDataOutcome :=
  match fetchResult with
  | .ok data =>
    let map := buildShiftMap data
    ⟨map, ⟨some map, now⟩, true⟩
  | .error _ =>
    match cache.data with
    | some m => ⟨m, cache, true⟩
    | none => ⟨[], cache, true⟩

/-- `fetchShiftData` (src/script.js lines 456-512).  `now` is `Date.now()`;
`fetchResult` is the combined outcome of `fetchWithRetry` + `res.json()` +
the `data.error` check.  Total by construction: every path returns a map. -/
def fetchShiftData (cache : ShiftsCache) (now : Nat)
    (fetchResult : Except String (List ShiftItem)) : ShiftDataOutcome :=
  match cache.data with
  | some m =>
    if now - cache.timestamp < SHIFTS_CACHE_DURATION then ⟨m, cache, false⟩
    else fetchShiftDataFetch cache now fetchResult
  | none => fetchShiftDataFetch cache now fetchResult

/-! ## Players and metrics (`getPlayers`/`getMetrics`, src/script.js 514-539) -/

/-- One roster record from `/api/players`. -/
structure Player where
  source : Int
  playerName : String
  licenseIdentifier : String
deriving DecidableEq

/-- The server metrics object (display fields only). -/
structure Metrics where
  maxPlayers : String
  uptime : String
  playerCount : Nat
deriving DecidableEq

/-- The `/api/players` JSON body: `{statusCode, error?, data?}`. -/
structure PlayersJson where
  statusCode : Int
  error : Option String
  data : Option (List Player)
deriving DecidableEq

/-- The `/api/metrics` JSON body: `{statusCode, data?}`. -/
structure MetricsJson where
  statusCode : Int
  data : Option Metrics
deriving DecidableEq

/-- `{ maxPlayers: "?", uptime: "N/A", playerCount: lastPlayers.length || 0 }`. -/
def defaultMetrics (lastLen : Nat) : Metrics :=
  ⟨"?", "N/A", lastLen⟩

/-- `getPlayers` (src/script.js lines 514-523): propagate fetch failure,
throw on `statusCode !== 200`, else return `json.data || []`. -/
def getPlayers (fetchRes : Except String PlayersJson) : Except String (List Player) :=
  match fetchRes with
  | .error e => .error e
  | .ok j =>
    if j.statusCode ≠ 200 then .error (j.error.getD "API error")
    else .ok (j.data.getD [])

/-- `getMetrics` (src/script.js lines 525-539): total — any fetch failure,
non-200 `statusCode`, or missing `data` yields the default metrics built
from the current `lastPlayers.length`. -/
def getMetrics (fetchRes : Except String MetricsJson) (lastLen : Nat) : Metrics :=
  match fetchRes with
  | .error _ => defaultMetrics lastLen
  | .ok j =>
    if j.statusCode ≠ 200 then defaultMetrics lastLen
    else j.data.getD (defaultMetrics lastLen)

/-! ## Refresh cycle (`loadData`, src/script.js lines 711-761)

The module state is `lastPlayers`, `lastMeta`, `lastUpdated`, the shift map,
the warning banner, the players table and the `loading` single-flight flag
plus the countdown counter.  One `loadData` call is one refresh cycle: the
guard drops the trigger when a cycle is in flight; otherwise players and
metrics are awaited together and the state is updated on the success or
failure branch, with the countdown reset and the flag cleared in `finally`. -/

/-- `refreshInterval = 30` (src/script.js line 379). -/
def refreshInterval : Int := 30

/-- Stable ascending insertion by `source` (the JS
`players.slice().sort((a, b) => (a?.source ?? 0) - (b?.source ?? 0))`). -/
def insertBySource (p : Player) : List Player → List Player
  | [] => [p]
  | q :: qs => if p.source ≤ q.source then p :: q :: qs else q :: insertBySource p qs

/-- Sort the fetched players ascending by `source`. -/
def sortPlayers (ps : List Player) : List Player :=
  ps.foldr insertBySource []

/-- The whole mutable view state of the dashboard. -/
structure ViewState where
  shiftMap : ShiftMap
  lastPlayers : List Player
  lastMeta : Metrics
  lastUpdated : Option String
  warning : Option String
  tableFailed : Bool
  loading : Bool
  refreshCounter : Int
deriving DecidableEq

/-- The staleness banner text of the degraded branch
(`⚠️ Update failed - showing last data from ${ts}`). -/
def staleWarning (ts : String) : String :=
  "⚠️ Update failed - showing last data from " ++ ts

/-- The success branch of `loadData` (src/script.js lines 722-738): store the
sorted players, overwrite `playerCount` with the actual sorted length, stamp
`lastUpdated`, hide the warning, re-render, and (from `finally`) reset the
countdown and clear the flag. -/
def successState (st : ViewState) (now : String) (ps : List Player)
    (metrics : Metrics) : ViewState :=
  let sorted := sortPlayers ps
  { st with
    lastPlayers := sorted
    lastMeta := { metrics with playerCount := sorted.length }
    lastUpdated := some now
    warning := none
    tableFailed := false
    loading := false
    refreshCounter := refreshInterval }

/-- One `loadData` call (src/script.js lines 711-761).  `now` is the
`nowTime()` timestamp string; `playersFetch`/`metricsFetch` are the raw
outcomes of the two `/api` fetches.  Returns the new state and whether any
network calls were issued. -/
def loadDataStep (st : ViewState) (now : String)
    (playersFetch : Except String PlayersJson)
    (metricsFetch : Except String MetricsJson) : ViewState × Bool :=
  if st.loading then (st, false)
  else
    let metrics := getMetrics metricsFetch st.lastPlayers.length
    match getPlayers playersFetch with
    | .ok ps => (successState st now ps metrics, true)
    | .error _ =>
      if st.lastPlayers.length ≠ 0 then
        ({ st with
            lastMeta := { st.lastMeta with playerCount := st.lastPlayers.length }
            warning := some (staleWarning (st.lastUpdated.getD "N/A"))
            tableFailed := false
            loading := false
            refreshCounter := refreshInterval }, true)
      else
        ({ st with
            tableFailed := true
            loading := false
            refreshCounter := refreshInterval }, true)

/-- One countdown tick (src/script.js lines 788-792): decrement the counter
and trigger `loadData` when it reaches zero. -/
def timerTick (st : ViewState) (now : String)
    (playersFetch : Except String PlayersJson)
    (metricsFetch : Except String MetricsJson) : ViewState × Bool :=
  let st' := { st with refreshCounter := st.refreshCounter - 1 }
  if st'.refreshCounter ≤ 0 then loadDataStep st' now playersFetch metricsFetch
  else (st', false)

/-! ## Shift filter (`renderPlayers`, src/script.js lines 643-684) -/

/-- The shift-filter part of the `renderPlayers` predicate: `"all"` passes
everything; otherwise a missing entry or a `"-"` role fails, and the role
string split on `" • "` is checked against the rules of the selected
filter. -/
def shiftFilterMatches (filter : String) (entry : Option ShiftEntry) : Bool :=
  if filter = "all" then true
  else
    match entry with
    | none => false
    | some e =>
      if e.role = "-" then false
      else
        let playerRoles := jsSplitBullet e.role
        if filter = "Shift-1" then
          playerRoles.contains "Shift-1" || playerRoles.contains "Full Shift"
        else if filter = "Shift-2" then
          playerRoles.contains "Shift-2" || playerRoles.contains "Full Shift"
        else if filter = "Full Shift" then
          playerRoles.contains "Full Shift"
        else if filter = "Staff" then
          playerRoles.contains "Staff"
        else false

/-- The shift entry resolved for a player (src/script.js lines 646-649):
the player-side key is `(p?.licenseIdentifier || "").toLowerCase()` —
lower-cased but not trimmed. -/
def playerShiftEntry (m : ShiftMap) (licenseIdentifier : String) : Option ShiftEntry :=
  mapGet m (jsToLower licenseIdentifier)

/-! # Theorems -/

/-! ## Retry lemmas -/

lemma numAttempts_nil : numAttempts [] = 0 := rfl

lemma numAttempts_att (i : Nat) (t : List Ev) :
    numAttempts (Ev.att i :: t) = numAttempts t + 1 := by
  simp [numAttempts, List.countP_cons]

lemma numAttempts_sleep (ms : Nat) (t : List Ev) :
    numAttempts (Ev.sleep ms :: t) = numAttempts t := by
  simp [numAttempts, List.countP_cons]

lemma fetchWithRetryGo_stop {α ε : Type} (outcomes : Nat → Except ε α)
    (maxRetries attempt : Nat) (lastError : Option ε) (h : ¬ attempt < maxRetries) :
    fetchWithRetryGo outcomes maxRetries attempt lastError = (.error lastError, []) := by
  unfold fetchWithRetryGo
  rw [if_neg h]

lemma fetchWithRetryGo_le {α ε : Type} (outcomes : Nat → Except ε α) (maxRetries : Nat) :
    ∀ n attempt lastError, maxRetries - attempt ≤ n →
      numAttempts (fetchWithRetryGo outcomes maxRetries attempt lastError).2 ≤
        maxRetries - attempt := by
  intro n
  induction n with
  | zero =>
    intro attempt le h
    rw [fetchWithRetryGo_stop outcomes maxRetries attempt le (by omega)]
    simp [numAttempts]
  | succ n ih =>
    intro attempt le h
    by_cases hlt : attempt < maxRetries
    · unfold fetchWithRetryGo
      rw [if_pos hlt]
      cases hout : outcomes attempt with
      | ok r =>
        simp only [numAttempts_att, numAttempts_nil]
        omega
      | error e =>
        have hrec := ih (attempt + 1) (some e) (by omega)
        dsimp only
        by_cases h2 : attempt < maxRetries - 1
        · rw [if_pos h2]
          simp only [numAttempts_att, numAttempts_sleep]
          omega
        · rw [if_neg h2]
          simp only [numAttempts_att]
          omega
    · rw [fetchWithRetryGo_stop outcomes maxRetries attempt le hlt]
      simp [numAttempts]

lemma fetchWithRetryGo_allFail {α ε : Type} (outcomes : Nat → Except ε α) (errs : Nat → ε)
    (maxRetries : Nat) (hfail : ∀ i, i < maxRetries → outcomes i = .error (errs i)) :
    ∀ n attempt lastError, maxRetries - attempt ≤ n → attempt < maxRetries →
      fetchWithRetryGo outcomes maxRetries attempt lastError =
        (.error (some (errs (maxRetries - 1))), retryTrace attempt (maxRetries - attempt)) := by
  intro n
  induction n with
  | zero => intro attempt le h hlt; exact absurd hlt (by omega)
  | succ n ih =>
    intro attempt le h hlt
    unfold fetchWithRetryGo
    rw [if_pos hlt, hfail attempt hlt]
    dsimp only
    by_cases h2 : attempt < maxRetries - 1
    · rw [if_pos h2, ih (attempt + 1) (some (errs attempt)) (by omega) (by omega)]
      have hk : maxRetries - attempt = (maxRetries - (attempt + 1)) + 1 := by omega
      have hk0 : maxRetries - (attempt + 1) ≠ 0 := by omega
      rw [hk]
      simp [retryTrace, hk0]
    · have ha : attempt = maxRetries - 1 := by omega
      rw [if_neg h2,
        fetchWithRetryGo_stop outcomes maxRetries (attempt + 1) (some (errs attempt)) (by omega)]
      have hk : maxRetries - attempt = 1 := by omega
      rw [hk, ha]
      simp [retryTrace]

lemma numAttempts_retryTrace : ∀ (k s : Nat), numAttempts (retryTrace s k) = k := by
  intro k
  induction k with
  | zero => intro s; simp [retryTrace, numAttempts]
  | succ k ih =>
    intro s
    by_cases h : k = 0
    · subst h; simp [retryTrace, numAttempts, List.countP_cons]
    · simp only [retryTrace, if_neg h, numAttempts_att, numAttempts_sleep, ih]

/-! ## C1 -/

/-- **C1**: for every sequence of outcomes of the underlying fetch,
`fetchWithRetry` makes at most `maxRetries` attempts; and when every attempt
fails, the call makes exactly `maxRetries` attempts, each failed non-final
attempt `i` is followed by a backoff delay of `backoffDelay i =
min(1000 * 2^i, 5000)` ms with no delay after the final attempt (the shape of
`retryTrace 0 maxRetries`), and the error raised is the error of the last
attempt. -/
theorem fetchWithRetry_c1 {α ε : Type} (outcomes : Nat → Except ε α) (errs : Nat → ε)
    (maxRetries : Nat) (hpos : 0 < maxRetries)
    (hfail : ∀ i, i < maxRetries → outcomes i = .error (errs i)) :
    (∀ oc : Nat → Except ε α, numAttempts (fetchWithRetry oc maxRetries).2 ≤ maxRetries) ∧
    fetchWithRetry outcomes maxRetries =
      (.error (some (errs (maxRetries - 1))), retryTrace 0 maxRetries) ∧
    numAttempts (fetchWithRetry outcomes maxRetries).2 = maxRetries := by
  have hall := fetchWithRetryGo_allFail outcomes errs maxRetries hfail maxRetries 0 none
    (by omega) hpos
  refine ⟨?_, ?_, ?_⟩
  · intro oc
    have hle := fetchWithRetryGo_le oc maxRetries maxRetries 0 none (by omega)
    simpa [fetchWithRetry] using hle
  · simpa [fetchWithRetry] using hall
  · rw [fetchWithRetry, hall]
    simpa using numAttempts_retryTrace maxRetries 0

/-- Witness for C1 at `maxRetries = 3` with every attempt failing: the last
error is raised after exactly 3 attempts, with delays of 1000 ms and 2000 ms
between attempts and none after the last. -/
theorem fetchWithRetry_c1_witness :
    fetchWithRetry (fun i => (Except.error i : Except Nat Nat)) 3 =
      (Except.error (some 2), [Ev.att 0, Ev.sleep 1000, Ev.att 1, Ev.sleep 2000, Ev.att 2]) ∧
    numAttempts (fetchWithRetry (fun i => (Except.error i : Except Nat Nat)) 3).2 = 3 := by
  have h := fetchWithRetry_c1 (fun i => (Except.error i : Except Nat Nat)) (fun i => i) 3
    (by decide) (fun i _ => rfl)
  refine ⟨h.2.1.trans ?_, h.2.2⟩
  rw [show retryTrace 0 3 = [Ev.att 0, Ev.sleep 1000, Ev.att 1, Ev.sleep 2000, Ev.att 2]
    from by decide]

/-! ## C2 -/

/-- **C2**: `fetchShiftData` is modelled as a total function — no path
throws.  A cached map younger than the 60,000 ms TTL is returned as-is with
no network fetch and the cache untouched; on fetch/parse failure the
previously cached map is returned unchanged when one exists and the empty
map when none does, again leaving the cache untouched. -/
theorem fetchShiftData_c2 (cache : ShiftsCache) (now : Nat)
    (fetchResult : Except String (List ShiftItem)) :
    (∀ m, cache.data = some m → now - cache.timestamp < SHIFTS_CACHE_DURATION →
      fetchShiftData cache now fetchResult = ⟨m, cache, false⟩) ∧
    (∀ e, fetchResult = .error e →
      (fetchShiftData cache now fetchResult).map = cache.data.getD [] ∧
      (fetchShiftData cache now fetchResult).cache = cache) := by
  constructor
  · intro m hm hage
    simp [fetchShiftData, hm, hage]
  · intro e he
    cases hc : cache.data with
    | none => simp [fetchShiftData, hc, he, fetchShiftDataFetch]
    | some m =>
      by_cases hage : now - cache.timestamp < SHIFTS_CACHE_DURATION
      · simp [fetchShiftData, hc, hage]
      · simp [fetchShiftData, hc, hage, he, fetchShiftDataFetch]

/-- Witness for C2: a 1-second-old cache entry is served without a fetch,
and a failed fetch with an empty cache yields the empty map with the cache
unchanged. -/
theorem fetchShiftData_c2_witness :
    fetchShiftData ⟨some [("k", ⟨"A", "Staff"⟩)], 1000⟩ 2000 (.error "boom") =
      ⟨[("k", ⟨"A", "Staff"⟩)], ⟨some [("k", ⟨"A", "Staff"⟩)], 1000⟩, false⟩ ∧
    (fetchShiftData ⟨none, 0⟩ 100000 (.error "boom")).map = [] ∧
    (fetchShiftData ⟨none, 0⟩ 100000 (.error "boom")).cache = ⟨none, 0⟩ := by
  refine ⟨?_, ?_⟩
  · exact (fetchShiftData_c2 ⟨some [("k", ⟨"A", "Staff"⟩)], 1000⟩ 2000 (.error "boom")).1
      [("k", ⟨"A", "Staff"⟩)] rfl (by decide)
  · have h := (fetchShiftData_c2 ⟨none, 0⟩ 100000 (.error "boom")).2 "boom" rfl
    simpa using h

/-! ## Sorting lemmas -/

lemma length_insertBySource (p : Player) :
    ∀ l : List Player, (insertBySource p l).length = l.length + 1 := by
  intro l
  induction l with
  | nil => rfl
  | cons q qs ih =>
    by_cases h : p.source ≤ q.source
    · simp [insertBySource, h]
    · simp [insertBySource, h, ih]

lemma length_sortPlayers (ps : List Player) : (sortPlayers ps).length = ps.length := by
  unfold sortPlayers
  induction ps with
  | nil => rfl
  | cons p ps ih => simp [List.foldr, length_insertBySource, ih]

/-! ## C3 -/

/-- **C3**: on every successful refresh cycle the `playerCount` stored in
the published metrics equals the length of the actually fetched player
list, regardless of the upstream-reported `playerCount`. -/
theorem loadData_playerCount_c3 (st : ViewState) (now : String)
    (playersFetch : Except String PlayersJson) (metricsFetch : Except String MetricsJson)
    (ps : List Player) (hidle : st.loading = false)
    (hok : getPlayers playersFetch = .ok ps) :
    ((loadDataStep st now playersFetch metricsFetch).1).lastMeta.playerCount = ps.length := by
  simp only [loadDataStep, hidle, if_neg (by simp : ¬ (false = true)), hok]
  simp [successState, length_sortPlayers]

/-- Witness for C3: upstream metrics report `playerCount = 10` while the
fetched array has 8 entries — 8 is published. -/
theorem loadData_playerCount_c3_witness :
    ((loadDataStep ⟨[], [], ⟨"?", "N/A", 0⟩, none, none, false, false, 30⟩ "12:00:00 PM"
        (Except.ok ⟨200, none, some
          [⟨1, "P1", "l1"⟩, ⟨2, "P2", "l2"⟩, ⟨3, "P3", "l3"⟩, ⟨4, "P4", "l4"⟩,
           ⟨5, "P5", "l5"⟩, ⟨6, "P6", "l6"⟩, ⟨7, "P7", "l7"⟩, ⟨8, "P8", "l8"⟩]⟩)
        (Except.ok ⟨200, some ⟨"64", "5h", 10⟩⟩)).1).lastMeta.playerCount = 8 := by
  exact (loadData_playerCount_c3 ⟨[], [], ⟨"?", "N/A", 0⟩, none, none, false, false, 30⟩
    "12:00:00 PM"
    (Except.ok ⟨200, none, some
      [⟨1, "P1", "l1"⟩, ⟨2, "P2", "l2"⟩, ⟨3, "P3", "l3"⟩, ⟨4, "P4", "l4"⟩,
       ⟨5, "P5", "l5"⟩, ⟨6, "P6", "l6"⟩, ⟨7, "P7", "l7"⟩, ⟨8, "P8", "l8"⟩]⟩)
    (Except.ok ⟨200, some ⟨"64", "5h", 10⟩⟩)
    [⟨1, "P1", "l1"⟩, ⟨2, "P2", "l2"⟩, ⟨3, "P3", "l3"⟩, ⟨4, "P4", "l4"⟩,
     ⟨5, "P5", "l5"⟩, ⟨6, "P6", "l6"⟩, ⟨7, "P7", "l7"⟩, ⟨8, "P8", "l8"⟩]
    rfl rfl).trans (by decide)

/-! ## C5 -/

/-- **C5**: when a refresh cycle fails and a prior snapshot with a non-empty
player list exists, the stored players and shift map are left unchanged,
only `playerCount` is overwritten with the retained list's length, and the
staleness warning referencing the last successful timestamp is shown; when
no prior snapshot exists, the explicit failed-to-load state is published and
the warning banner is not touched. -/
theorem loadData_failure_c5 (st : ViewState) (now : String)
    (pf : Except String PlayersJson) (mf : Except String MetricsJson) (err : String)
    (hidle : st.loading = false) (hfail : getPlayers pf = .error err) :
    (st.lastPlayers ≠ [] →
      loadDataStep st now pf mf =
        ({ st with
            lastMeta := { st.lastMeta with playerCount := st.lastPlayers.length }
            warning := some (staleWarning (st.lastUpdated.getD "N/A"))
            tableFailed := false
            loading := false
            refreshCounter := refreshInterval }, true)) ∧
    (st.lastPlayers = [] →
      loadDataStep st now pf mf =
        ({ st with
            tableFailed := true
            loading := false
            refreshCounter := refreshInterval }, true)) := by
  constructor
  · intro h
    have hlen : st.lastPlayers.length ≠ 0 := by
      simpa [List.length_eq_zero] using h
    simp [loadDataStep, hidle, hfail, hlen]
  · intro h
    simp [loadDataStep, hidle, hfail, h]

/-- Witness for C5: with one retained player the degraded state keeps the
players and shift map and shows the banner with the old timestamp; with no
retained players the failed state is published with the warning untouched. -/
theorem loadData_failure_c5_witness :
    loadDataStep
        ⟨[("l1", ⟨"A", "Staff"⟩)], [⟨1, "P1", "l1"⟩], ⟨"64", "5h", 1⟩,
          some "10:00:00 AM", none, false, false, 30⟩
        "10:05:00 AM" (Except.error "down") (Except.error "down") =
      (⟨[("l1", ⟨"A", "Staff"⟩)], [⟨1, "P1", "l1"⟩], ⟨"64", "5h", 1⟩,
          some "10:00:00 AM",
          some (staleWarning "10:00:00 AM"), false, false, 30⟩, true) ∧
    loadDataStep ⟨[], [], ⟨"?", "N/A", 0⟩, none, none, false, false, 30⟩
        "09:00:00 AM" (Except.error "down") (Except.error "down") =
      (⟨[], [], ⟨"?", "N/A", 0⟩, none, none, true, false, 30⟩, true) := by
  constructor
  · exact ((loadData_failure_c5
      ⟨[("l1", ⟨"A", "Staff"⟩)], [⟨1, "P1", "l1"⟩], ⟨"64", "5h", 1⟩,
        some "10:00:00 AM", none, false, false, 30⟩
      "10:05:00 AM" (Except.error "down") (Except.error "down") "down" rfl rfl).1
      (by decide)).trans (by decide)
  · exact ((loadData_failure_c5 ⟨[], [], ⟨"?", "N/A", 0⟩, none, none, false, false, 30⟩
      "09:00:00 AM" (Except.error "down") (Except.error "down") "down" rfl rfl).2
      rfl).trans (by decide)

/-! ## C6 -/

/-- **C6**: single-flight — when a refresh is already loading, a manual
trigger is a no-op (state unchanged, no network calls issued), and a
countdown tick whose expiry fires the trigger only decrements the counter
without issuing network calls. -/
theorem loadData_singleFlight_c6 (st : ViewState) (now : String)
    (pf : Except String PlayersJson) (mf : Except String MetricsJson)
    (hload : st.loading = true) :
    loadDataStep st now pf mf = (st, false) ∧
    timerTick st now pf mf =
      ({ st with refreshCounter := st.refreshCounter - 1 }, false) := by
  have h1 : ∀ s : ViewState, s.loading = true → loadDataStep s now pf mf = (s, false) := by
    intro s hs
    simp [loadDataStep, hs]
  refine ⟨h1 st hload, ?_⟩
  unfold timerTick
  by_cases hc : ({ st with refreshCounter := st.refreshCounter - 1 } : ViewState).refreshCounter ≤ 0
  · rw [if_pos hc]
    exact h1 _ hload
  · rw [if_neg hc]

/-- Witness for C6: with a cycle in flight (counter at 0, so the tick also
reaches the trigger) both the manual trigger and the tick issue no network
calls and change nothing but the tick's decrement. -/
theorem loadData_singleFlight_c6_witness :
    loadDataStep ⟨[], [⟨1, "P1", "l1"⟩], ⟨"64", "5h", 1⟩, some "10:00:00 AM",
        none, false, true, 0⟩ "10:00:30 AM" (Except.error "x") (Except.error "x") =
      (⟨[], [⟨1, "P1", "l1"⟩], ⟨"64", "5h", 1⟩, some "10:00:00 AM",
        none, false, true, 0⟩, false) ∧
    timerTick ⟨[], [⟨1, "P1", "l1"⟩], ⟨"64", "5h", 1⟩, some "10:00:00 AM",
        none, false, true, 0⟩ "10:00:30 AM" (Except.error "x") (Except.error "x") =
      (⟨[], [⟨1, "P1", "l1"⟩], ⟨"64", "5h", 1⟩, some "10:00:00 AM",
        none, false, true, -1⟩, false) := by
  have h := loadData_singleFlight_c6 ⟨[], [⟨1, "P1", "l1"⟩], ⟨"64", "5h", 1⟩,
    some "10:00:00 AM", none, false, true, 0⟩ "10:00:30 AM"
    (Except.error "x") (Except.error "x") rfl
  exact ⟨h.1, h.2.trans (by decide)⟩

/-! ## C10 -/

/-- **C10**: `getMetrics` is total — transport failure, a non-200
`statusCode`, and a missing body all yield the default metrics object built
from the current player count — and therefore a refresh cycle takes its
failure branch only when the players fetch fails: whenever `getPlayers`
succeeds, `loadDataStep` takes the success branch for every metrics
outcome. -/
theorem getMetrics_total_c10 (e : String) (n : Nat) (j j' : MetricsJson)
    (st : ViewState) (now : String) (pf : Except String PlayersJson)
    (mf : Except String MetricsJson) (ps : List Player)
    (hj : j.statusCode ≠ 200) (hj' : j'.statusCode = 200)
    (hidle : st.loading = false) (hok : getPlayers pf = .ok ps) :
    getMetrics (.error e) n = defaultMetrics n ∧
    getMetrics (.ok j) n = defaultMetrics n ∧
    getMetrics (.ok j') n = j'.data.getD (defaultMetrics n) ∧
    loadDataStep st now pf mf =
      (successState st now ps (getMetrics mf st.lastPlayers.length), true) := by
  refine ⟨rfl, ?_, ?_, ?_⟩
  · simp [getMetrics, hj]
  · simp [getMetrics, hj']
  · simp [loadDataStep, hidle, hok]

/-- Witness for C10: a metrics body with `statusCode = 500` falls back to
the defaults, and a refresh whose metrics fetch failed outright still takes
the success branch when the players fetch succeeds. -/
theorem getMetrics_total_c10_witness :
    getMetrics (.error "down") 4 = defaultMetrics 4 ∧
    getMetrics (.ok ⟨500, some ⟨"64", "5h", 9⟩⟩) 4 = defaultMetrics 4 ∧
    getMetrics (.ok ⟨200, some ⟨"64", "5h", 9⟩⟩) 4 =
      (some (⟨"64", "5h", 9⟩ : Metrics)).getD (defaultMetrics 4) ∧
    loadDataStep ⟨[], [], ⟨"?", "N/A", 0⟩, none, none, false, false, 30⟩ "11:00:00 AM"
        (Except.ok ⟨200, none, some [⟨1, "P1", "l1"⟩]⟩) (Except.error "down") =
      (successState ⟨[], [], ⟨"?", "N/A", 0⟩, none, none, false, false, 30⟩ "11:00:00 AM"
        [⟨1, "P1", "l1"⟩] (getMetrics (Except.error "down") 0), true) := by
  exact getMetrics_total_c10 "down" 4 ⟨500, some ⟨"64", "5h", 9⟩⟩ ⟨200, some ⟨"64", "5h", 9⟩⟩
    ⟨[], [], ⟨"?", "N/A", 0⟩, none, none, false, false, 30⟩ "11:00:00 AM"
    (Except.ok ⟨200, none, some [⟨1, "P1", "l1"⟩]⟩) (Except.error "down")
    [⟨1, "P1", "l1"⟩] (by decide) rfl rfl rfl

/-! ## C4 -/

/-- **C4**: the shift filter splits the entry's role string on `" • "` and
then: `"Shift-1"` matches iff the set contains `"Shift-1"` or
`"Full Shift"`; `"Shift-2"` matches iff it contains `"Shift-2"` or
`"Full Shift"`; `"Full Shift"` iff it contains `"Full Shift"`; `"Staff"`
iff it contains `"Staff"`; `"all"` matches every player, entry or not; and
any non-`"all"` filter excludes a player with no shift entry. -/
theorem shiftFilter_c4 (e : ShiftEntry) (ent : Option ShiftEntry) (f : String)
    (hf : f ≠ "all") :
    shiftFilterMatches "Shift-1" (some e) =
      ((jsSplitBullet e.role).contains "Shift-1" ||
        (jsSplitBullet e.role).contains "Full Shift") ∧
    shiftFilterMatches "Shift-2" (some e) =
      ((jsSplitBullet e.role).contains "Shift-2" ||
        (jsSplitBullet e.role).contains "Full Shift") ∧
    shiftFilterMatches "Full Shift" (some e) = (jsSplitBullet e.role).contains "Full Shift" ∧
    shiftFilterMatches "Staff" (some e) = (jsSplitBullet e.role).contains "Staff" ∧
    shiftFilterMatches "all" ent = true ∧
    shiftFilterMatches f none = false := by
  have hsome : ∀ fl : String, fl ≠ "all" →
      shiftFilterMatches fl (some e) =
        (if e.role = "-" then false
         else if fl = "Shift-1" then
           (jsSplitBullet e.role).contains "Shift-1" ||
             (jsSplitBullet e.role).contains "Full Shift"
         else if fl = "Shift-2" then
           (jsSplitBullet e.role).contains "Shift-2" ||
             (jsSplitBullet e.role).contains "Full Shift"
         else if fl = "Full Shift" then (jsSplitBullet e.role).contains "Full Shift"
         else if fl = "Staff" then (jsSplitBullet e.role).contains "Staff"
         else false) := by
    intro fl hfl
    unfold shiftFilterMatches
    rw [if_neg hfl]
  refine ⟨?_, ?_, ?_, ?_, ?_, ?_⟩
  · rw [hsome "Shift-1" (by decide)]
    by_cases hr : e.role = "-"
    · rw [if_pos hr, hr]; decide
    · rw [if_neg hr, if_pos rfl]
  · rw [hsome "Shift-2" (by decide)]
    by_cases hr : e.role = "-"
    · rw [if_pos hr, hr]; decide
    · rw [if_neg hr, if_neg (by decide), if_pos rfl]
  · rw [hsome "Full Shift" (by decide)]
    by_cases hr : e.role = "-"
    · rw [if_pos hr, hr]; decide
    · rw [if_neg hr, if_neg (by decide), if_neg (by decide), if_pos rfl]
  · rw [hsome "Staff" (by decide)]
    by_cases hr : e.role = "-"
    · rw [if_pos hr, hr]; decide
    · rw [if_neg hr, if_neg (by decide), if_neg (by decide), if_neg (by decide), if_pos rfl]
  · unfold shiftFilterMatches
    rw [if_pos rfl]
  · unfold shiftFilterMatches
    rw [if_neg hf]

/-- Witness for C4 on the spec's example: role `"Shift-1 • Full Shift"` is
included by filter `"Shift-1"`, excluded by `"Staff"`, and a player with no
entry is excluded under `"Staff"`. -/
theorem shiftFilter_c4_witness :
    shiftFilterMatches "Shift-1" (some ⟨"X", "Shift-1 • Full Shift"⟩) = true ∧
    shiftFilterMatches "Staff" (some ⟨"X", "Shift-1 • Full Shift"⟩) = false ∧
    shiftFilterMatches "all" none = true ∧
    shiftFilterMatches "Staff" none = false := by
  have h := shiftFilter_c4 ⟨"X", "Shift-1 • Full Shift"⟩ none "Staff" (by decide)
  exact ⟨h.1.trans (by decide), h.2.2.2.1.trans (by decide), h.2.2.2.2.1, h.2.2.2.2.2⟩

/-! ## C7 -/

/-- **C7 counterexample**: the claim states that a player with
`licenseIdentifier = " ABC123 "` and one with `"abc123"` resolve to the same
ShiftMap entry.  In the code the player-side lookup key is only
lower-cased, never trimmed, so against the map built from license
`"abc123"` the first player resolves to nothing while the second resolves
to the entry. -/
theorem shiftLookup_c7_counterexample :
    playerShiftEntry (buildShiftMap [⟨"abc123", "X", "Staff"⟩]) " ABC123 " = none ∧
    playerShiftEntry (buildShiftMap [⟨"abc123", "X", "Staff"⟩]) "abc123" =
      some ⟨"X", "Staff"⟩ := by
  decide

/-- **C7 amended**: ShiftMap keys are normalized by trimming + lower-casing,
so two upstream licenses agreeing up to trim + case produce the same map;
the player-side lookup only lower-cases its key, so the lookup is
case-insensitive (two licenseIdentifiers agreeing up to case resolve to the
same entry) but not whitespace-insensitive. -/
theorem shiftLookup_c7_amended (m : ShiftMap) (l1 l2 ic role l3 l4 : String)
    (hcase : jsToLower l1 = jsToLower l2)
    (hkey : jsToLower (jsTrim l3) = jsToLower (jsTrim l4)) :
    playerShiftEntry m l1 = playerShiftEntry m l2 ∧
    buildShiftMap [⟨l3, ic, role⟩] = buildShiftMap [⟨l4, ic, role⟩] := by
  constructor
  · unfold playerShiftEntry
    rw [hcase]
  · unfold buildShiftMap
    simp only [List.foldl_cons, List.foldl_nil]
    rw [hkey]

/-- Witness for C7 amended: `"ABC123"` and `"abc123"` resolve identically on
the player side, and shift-data licenses `" ABC123 "` and `"abc123"` build
the same map. -/
theorem shiftLookup_c7_amended_witness :
    playerShiftEntry (buildShiftMap [⟨"abc123", "X", "Staff"⟩]) "ABC123" =
      playerShiftEntry (buildShiftMap [⟨"abc123", "X", "Staff"⟩]) "abc123" ∧
    buildShiftMap [⟨" ABC123 ", "X", "Staff"⟩] = buildShiftMap [⟨"abc123", "X", "Staff"⟩] :=
  shiftLookup_c7_amended (buildShiftMap [⟨"abc123", "X", "Staff"⟩]) "ABC123" "abc123"
    "X" "Staff" " ABC123 " "abc123" (by decide) (by decide)

/-! ## CSV lemmas

Step lemmas re-expressing one iteration of the parser and record-counter
character loops, then the row-count and round-trip properties. -/

lemma string_mk_data (s : String) : String.mk s.data = s := rfl

lemma pg_nil (rows : List (List String)) (row : List String) (cell : List Char) (q : Bool) :
    parseCsvGo [] rows row cell q = rows ++ [row ++ [String.mk cell]] := rfl

lemma pg_open (cs : List Char) (rows : List (List String)) (row : List String)
    (cell : List Char) :
    parseCsvGo ('"' :: cs) rows row cell false = parseCsvGo cs rows row cell true := rfl

lemma pg_comma (cs : List Char) (rows : List (List String)) (row : List String)
    (cell : List Char) :
    parseCsvGo (',' :: cs) rows row cell false =
      parseCsvGo cs rows (row ++ [String.mk cell]) [] false := rfl

lemma pg_nl (cs : List Char) (rows : List (List String)) (row : List String)
    (cell : List Char) :
    parseCsvGo ('\n' :: cs) rows row cell false =
      parseCsvGo cs (rows ++ [row ++ [String.mk cell]]) [] [] false := rfl

lemma pg_cr (cs : List Char) (rows : List (List String)) (row : List String)
    (cell : List Char) :
    parseCsvGo ('\r' :: cs) rows row cell false = parseCsvGo cs rows row cell false := rfl

lemma pg_outq (c : Char) (cs : List Char) (rows : List (List String)) (row : List String)
    (cell : List Char) (h1 : ¬ c = '"') (h2 : ¬ c = ',') (h3 : ¬ c = '\n')
    (h4 : ¬ c = '\r') :
    parseCsvGo (c :: cs) rows row cell false =
      parseCsvGo cs rows row (cell ++ [c]) false := by
  have hb : parseCsvGo (c :: cs) rows row cell false =
      if c = '"' then parseCsvGo cs rows row cell true
      else if c = ',' then parseCsvGo cs rows (row ++ [String.mk cell]) [] false
      else if c = '\n' then parseCsvGo cs (rows ++ [row ++ [String.mk cell]]) [] [] false
      else if c = '\r' then parseCsvGo cs rows row cell false
      else parseCsvGo cs rows row (cell ++ [c]) false := rfl
  rw [hb, if_neg h1, if_neg h2, if_neg h3, if_neg h4]

lemma pg_esc (cs2 : List Char) (rows : List (List String)) (row : List String)
    (cell : List Char) :
    parseCsvGo ('"' :: '"' :: cs2) rows row cell true =
      parseCsvGo cs2 rows row (cell ++ ['"']) true := rfl

lemma pg_quote_eof (rows : List (List String)) (row : List String) (cell : List Char) :
    parseCsvGo ['"'] rows row cell true = rows ++ [row ++ [String.mk cell]] := rfl

lemma pg_close (c2 : Char) (cs2 : List Char) (rows : List (List String)) (row : List String)
    (cell : List Char) (h : ¬ c2 = '"') :
    parseCsvGo ('"' :: c2 :: cs2) rows row cell true =
      parseCsvGo (c2 :: cs2) rows row cell false := by
  have hb : parseCsvGo ('"' :: c2 :: cs2) rows row cell true =
      if c2 = '"' then parseCsvGo cs2 rows row (cell ++ ['"']) true
      else parseCsvGo (c2 :: cs2) rows row cell false := rfl
  rw [hb, if_neg h]

lemma pg_inq (c : Char) (cs : List Char) (rows : List (List String)) (row : List String)
    (cell : List Char) (h : ¬ c = '"') :
    parseCsvGo (c :: cs) rows row cell true =
      parseCsvGo cs rows row (cell ++ [c]) true := by
  cases cs with
  | nil =>
    have hb : parseCsvGo [c] rows row cell true =
        if c = '"' then rows ++ [row ++ [String.mk cell]]
        else parseCsvGo [] rows row (cell ++ [c]) true := rfl
    rw [hb, if_neg h]
  | cons d ds =>
    have hb : parseCsvGo (c :: d :: ds) rows row cell true =
        if c = '"' then
          (if d = '"' then parseCsvGo ds rows row (cell ++ ['"']) true
           else parseCsvGo (d :: ds) rows row cell false)
        else parseCsvGo (d :: ds) rows row (cell ++ [c]) true := rfl
    rw [hb, if_neg h]

lemma crc_nil (q : Bool) : csvRecordCount [] q = 1 := rfl

lemma crc_open (cs : List Char) : csvRecordCount ('"' :: cs) false = csvRecordCount cs true :=
  rfl

lemma crc_nl (cs : List Char) :
    csvRecordCount ('\n' :: cs) false = 1 + csvRecordCount cs false := rfl

lemma crc_outq (c : Char) (cs : List Char) (h1 : ¬ c = '"') (h2 : ¬ c = '\n') :
    csvRecordCount (c :: cs) false = csvRecordCount cs false := by
  have hb : csvRecordCount (c :: cs) false =
      if c = '"' then csvRecordCount cs true
      else if c = '\n' then 1 + csvRecordCount cs false
      else csvRecordCount cs false := rfl
  rw [hb, if_neg h1, if_neg h2]

lemma crc_esc (cs2 : List Char) :
    csvRecordCount ('"' :: '"' :: cs2) true = csvRecordCount cs2 true := rfl

lemma crc_quote_eof : csvRecordCount ['"'] true = 1 := rfl

lemma crc_close (c2 : Char) (cs2 : List Char) (h : ¬ c2 = '"') :
    csvRecordCount ('"' :: c2 :: cs2) true = csvRecordCount (c2 :: cs2) false := by
  have hb : csvRecordCount ('"' :: c2 :: cs2) true =
      if c2 = '"' then csvRecordCount cs2 true
      else csvRecordCount (c2 :: cs2) false := rfl
  rw [hb, if_neg h]

lemma crc_inq (c : Char) (cs : List Char) (h : ¬ c = '"') :
    csvRecordCount (c :: cs) true = csvRecordCount cs true := by
  cases cs with
  | nil =>
    have hb : csvRecordCount [c] true =
        if c = '"' then 1 else csvRecordCount [] true := rfl
    rw [hb, if_neg h]
  | cons d ds =>
    have hb : csvRecordCount (c :: d :: ds) true =
        if c = '"' then
          (if d = '"' then csvRecordCount ds true else csvRecordCount (d :: ds) false)
        else csvRecordCount (d :: ds) true := rfl
    rw [hb, if_neg h]

lemma parseCsvGo_length : ∀ (n : Nat) (cs : List Char), cs.length ≤ n →
    ∀ (rows : List (List String)) (row : List String) (cell : List Char) (q : Bool),
      (parseCsvGo cs rows row cell q).length = rows.length + csvRecordCount cs q := by
  intro n
  induction n with
  | zero =>
    intro cs hcs rows row cell q
    have hnil : cs = [] := List.eq_nil_of_length_eq_zero (by omega)
    subst hnil
    rw [pg_nil, crc_nil]
    simp
  | succ n ih =>
    intro cs hcs rows row cell q
    cases cs with
    | nil =>
      rw [pg_nil, crc_nil]
      simp
    | cons c cs' =>
      have hlen : cs'.length ≤ n := by
        simp only [List.length_cons] at hcs
        omega
      cases q with
      | true =>
        by_cases h : c = '"'
        · subst h
          cases cs' with
          | nil =>
            rw [pg_quote_eof, crc_quote_eof]
            simp
          | cons c2 cs2 =>
            have hlen2 : cs2.length ≤ n := by
              simp only [List.length_cons] at hcs
              omega
            by_cases h2 : c2 = '"'
            · subst h2
              rw [pg_esc, crc_esc]
              exact ih cs2 hlen2 rows row (cell ++ ['"']) true
            · rw [pg_close c2 cs2 rows row cell h2, crc_close c2 cs2 h2]
              exact ih (c2 :: cs2) hlen rows row cell false
        · rw [pg_inq c cs' rows row cell h, crc_inq c cs' h]
          exact ih cs' hlen rows row (cell ++ [c]) true
      | false =>
        by_cases h : c = '"'
        · subst h
          rw [pg_open, crc_open]
          exact ih cs' hlen rows row cell true
        · by_cases hcm : c = ','
          · subst hcm
            rw [pg_comma, crc_outq ',' cs' (by decide) (by decide)]
            exact ih cs' hlen rows (row ++ [String.mk cell]) [] false
          · by_cases hn : c = '\n'
            · subst hn
              rw [pg_nl, crc_nl, ih cs' hlen (rows ++ [row ++ [String.mk cell]]) [] [] false]
              simp only [List.length_append, List.length_cons, List.length_nil]
              omega
            · by_cases hr : c = '\r'
              · subst hr
                rw [pg_cr, crc_outq '\r' cs' (by decide) (by decide)]
                exact ih cs' hlen rows row cell false
              · rw [pg_outq c cs' rows row cell h hcm hn hr, crc_outq c cs' h hn]
                exact ih cs' hlen rows row (cell ++ [c]) false

lemma parseCsv_length (text : String) :
    (parseCsv text).length = csvRecordCount text.data false := by
  have h := parseCsvGo_length text.data.length text.data le_rfl [] [] [] false
  simpa [parseCsv] using h

lemma csvRecordCount_noQuote : ∀ (cs : List Char), '"' ∉ cs →
    csvRecordCount cs false = List.count '\n' cs + 1 := by
  intro cs
  induction cs with
  | nil => intro _; rw [crc_nil]; simp
  | cons c cs ih =>
    intro h
    rw [List.mem_cons, not_or] at h
    obtain ⟨h1, h2⟩ := h
    have hc : ¬ (c = '"') := fun e => h1 e.symm
    by_cases hn : c = '\n'
    · subst hn
      rw [crc_nl, ih h2]
      have hcount : List.count '\n' ('\n' :: cs) = List.count '\n' cs + 1 := by
        simp [List.count_cons]
      rw [hcount]
      omega
    · have hn' : ¬ (('\n' : Char) = c) := fun e => hn e.symm
      rw [crc_outq c cs hc hn, ih h2]
      have hcount : List.count '\n' (c :: cs) = List.count '\n' cs := by
        simp [List.count_cons, hn']
      rw [hcount]

/-! ## C8 -/

/-- **C8**: for every input text, the number of rows returned by `parseCsv`
equals the number of newline-delimited records in the text
(`csvRecordCount`: newlines inside quoted fields do not delimit records, and
the trailing record is counted even without a final newline, i.e. the
trailing unterminated record is still emitted as a row); in particular, for
quote-free text the row count is exactly the number of `\n` characters plus
one. -/
theorem parseCsv_rowCount_c8 (text : String) :
    (parseCsv text).length = csvRecordCount text.data false ∧
    ('"' ∉ text.data → (parseCsv text).length = List.count '\n' text.data + 1) := by
  refine ⟨parseCsv_length text, fun h => ?_⟩
  rw [parseCsv_length text, csvRecordCount_noQuote text.data h]

/-- Witness for C8: a quoted field containing a newline does not split a
record, and a trailing record without a final newline is still emitted. -/
theorem parseCsv_rowCount_c8_witness :
    (parseCsv "a,b\n\"x\ny\",z").length = 2 ∧
    (parseCsv "a,b\nc").length = List.count '\n' "a,b\nc".data + 1 ∧
    (parseCsv "a,b\nc").length = 2 := by
  refine ⟨((parseCsv_rowCount_c8 "a,b\n\"x\ny\",z").1).trans (by decide),
    (parseCsv_rowCount_c8 "a,b\nc").2 (by decide), ?_⟩
  exact ((parseCsv_rowCount_c8 "a,b\nc").1).trans (by decide)

/-! ## Round-trip lemmas -/

lemma parse_escaped : ∀ (fs : List Char) (rest : List Char), rest.head? ≠ some '"' →
    ∀ (rows : List (List String)) (row : List String) (cell : List Char),
      parseCsvGo (escapeQuotes fs ++ '"' :: rest) rows row cell true =
        parseCsvGo rest rows row (cell ++ fs) false := by
  intro fs
  induction fs with
  | nil =>
    intro rest h rows row cell
    rw [show escapeQuotes [] = [] from rfl, List.nil_append, List.append_nil]
    cases rest with
    | nil => rw [pg_quote_eof, pg_nil]
    | cons r rs =>
      have hr : ¬ (r = '"') := by simpa using h
      rw [pg_close r rs rows row cell hr]
  | cons f fs ih =>
    intro rest h rows row cell
    by_cases hf : f = '"'
    · subst hf
      have he : escapeQuotes ('"' :: fs) = '"' :: '"' :: escapeQuotes fs := rfl
      rw [he, List.cons_append, List.cons_append, pg_esc,
        ih rest h rows row (cell ++ ['"']), List.append_assoc, List.singleton_append]
    · have he : escapeQuotes (f :: fs) = f :: escapeQuotes fs := by
        have hb : escapeQuotes (f :: fs) =
            (if f = '"' then ['"', '"'] else [f]) ++ escapeQuotes fs := rfl
        rw [hb, if_neg hf, List.singleton_append]
      rw [he, List.cons_append, pg_inq f (escapeQuotes fs ++ '"' :: rest) rows row cell hf,
        ih rest h rows row (cell ++ [f]), List.append_assoc, List.singleton_append]

lemma serializeRow_cons (f : String) (r : List String) (hr : r ≠ []) :
    serializeRow (f :: r) = quoteField f ++ ',' :: serializeRow r := by
  cases r with
  | nil => exact absurd rfl hr
  | cons g gs => rfl

lemma serializeCsv_cons (sep : List Char) (r : List String) (rs : List (List String))
    (h : rs ≠ []) :
    serializeCsv sep (r :: rs) = serializeRow r ++ sep ++ serializeCsv sep rs := by
  cases rs with
  | nil => exact absurd rfl h
  | cons r' rs' => rfl

lemma parse_fields : ∀ (init : List String) (lastF : String) (rest : List Char),
    rest.head? ≠ some '"' → ∀ (rows : List (List String)) (row : List String),
      parseCsvGo (serializeRow (init ++ [lastF]) ++ rest) rows row [] false =
        parseCsvGo rest rows (row ++ init) lastF.data false := by
  intro init
  induction init with
  | nil =>
    intro lastF rest h rows row
    rw [List.nil_append, List.append_nil,
      show serializeRow [lastF] = '"' :: (escapeQuotes lastF.data ++ ['"']) from rfl,
      List.cons_append, pg_open, List.append_assoc, List.singleton_append,
      parse_escaped lastF.data rest h rows row [], List.nil_append]
  | cons f init ih =>
    intro lastF rest h rows row
    rw [show ((f :: init) ++ [lastF] : List String) = f :: (init ++ [lastF]) from rfl,
      serializeRow_cons f (init ++ [lastF]) (by simp),
      show quoteField f = '"' :: (escapeQuotes f.data ++ ['"']) from rfl]
    rw [List.append_assoc, List.cons_append, List.cons_append, pg_open,
      List.append_assoc, List.singleton_append]
    rw [parse_escaped f.data (',' :: (serializeRow (init ++ [lastF]) ++ rest)) (by simp)
      rows row []]
    rw [List.nil_append, pg_comma, string_mk_data, ih lastF rest h rows (row ++ [f]),
      List.append_assoc, List.singleton_append]

lemma parse_rows (sep : List Char) (hsep : sep = ['\n'] ∨ sep = ['\r', '\n']) :
    ∀ (rs : List (List String)), rs ≠ [] → (∀ r ∈ rs, r ≠ []) →
      ∀ rows, parseCsvGo (serializeCsv sep rs) rows [] [] false = rows ++ rs := by
  intro rs
  induction rs with
  | nil => intro hne _ _; exact absurd rfl hne
  | cons r rs ih =>
    intro _ hall rows
    obtain ⟨init, lastF, hconcat⟩ : ∃ init lastF, r = init ++ [lastF] := by
      rcases List.eq_nil_or_concat r with hnil | ⟨L, b, hc⟩
      · exact absurd hnil (hall r (List.mem_cons_self r rs))
      · exact ⟨L, b, by rw [hc, List.concat_eq_append]⟩
    cases rs with
    | nil =>
      rw [show serializeCsv sep [r] = serializeRow r from rfl, hconcat,
        show serializeRow (init ++ [lastF]) =
          serializeRow (init ++ [lastF]) ++ [] from by rw [List.append_nil],
        parse_fields init lastF [] (by simp) rows [], pg_nil, string_mk_data,
        List.nil_append]
    | cons r' rs' =>
      rw [serializeCsv_cons sep r (r' :: rs') (by simp), List.append_assoc, hconcat]
      have hhead : (sep ++ serializeCsv sep (r' :: rs')).head? ≠ some '"' := by
        rcases hsep with hs | hs <;> subst hs <;> simp
      rw [parse_fields init lastF (sep ++ serializeCsv sep (r' :: rs')) hhead rows [],
        List.nil_append]
      have hih := ih (by simp) (fun x hx => hall x (List.mem_cons_of_mem r hx))
        (rows ++ [init ++ [lastF]])
      rcases hsep with hs | hs
      · subst hs
        rw [show (['\n'] ++ serializeCsv ['\n'] (r' :: rs') : List Char) =
            '\n' :: serializeCsv ['\n'] (r' :: rs') from rfl,
          pg_nl, string_mk_data, hih, List.append_assoc, List.singleton_append]
      · subst hs
        rw [show (['\r', '\n'] ++ serializeCsv ['\r', '\n'] (r' :: rs') : List Char) =
            '\r' :: '\n' :: serializeCsv ['\r', '\n'] (r' :: rs') from rfl,
          pg_cr, pg_nl, string_mk_data, hih, List.append_assoc, List.singleton_append]

/-! ## C9 -/

/-- **C9**: quoted-CSV round trip — serializing any non-degenerate table of
field values as fully-quoted CSV (fields may contain commas, quotes —
emitted as the doubled-quote escape — and newlines) and re-parsing recovers
exactly the original rows, both with `\n` and with `\r\n` line terminators
(the `\r` being discarded by the parser). -/
theorem parseCsv_roundTrip_c9 (rows : List (List String)) (hne : rows ≠ [])
    (hr : ∀ r ∈ rows, r ≠ []) :
    parseCsv (String.mk (serializeCsv ['\n'] rows)) = rows ∧
    parseCsv (String.mk (serializeCsv ['\r', '\n'] rows)) = rows := by
  constructor
  · have h := parse_rows ['\n'] (Or.inl rfl) rows hne hr []
    simpa [parseCsv] using h
  · have h := parse_rows ['\r', '\n'] (Or.inr rfl) rows hne hr []
    simpa [parseCsv] using h

/-- Witness for C9 on fields containing the delimiter and embedded quotes,
with both line terminators. -/
theorem parseCsv_roundTrip_c9_witness :
    parseCsv (String.mk (serializeCsv ['\n'] [["a,b", "c\"d"], ["x"]])) =
      [["a,b", "c\"d"], ["x"]] ∧
    parseCsv (String.mk (serializeCsv ['\r', '\n'] [["a,b", "c\"d"], ["x"]])) =
      [["a,b", "c\"d"], ["x"]] :=
  parseCsv_roundTrip_c9 [["a,b", "c\"d"], ["x"]] (by decide) (by decide)

end LrbdTracker
